import Mathlib

/-!
Verification development for the ticatec scripts-loader repository
(src/BaseScriptLoader.ts).

The TypeScript class BaseScriptLoader is embedded shallowly:

* The filesystem under the script directory is a pair of association
  lists (artifact files under plugins/, plus the timestamp file content).
* The in-memory state (scriptsCache map, anchor Date, isLoading flag)
  becomes an explicit LoaderState record threaded through functions.
* Dates are modelled as Nat milliseconds since the Unix epoch.
* The abstract (host supplied) methods and the fallible environment
  operations become a LoaderEnv record of oracles: writeOk models
  whether fs.writeFile succeeds for a record, loadResult models the
  require / default-export / constructor-invocation pipeline (none
  means the pipeline throws or the export is not invocable), unlinkOk
  models whether fs.promises.unlink succeeds, saveOk models whether
  fs.writeFileSync on the timestamp file succeeds, and the result of
  getUpdatedScripts for one cycle is passed in as an Except value
  (error models a rejected source query).
* The JavaScript parseInt applied in loadLastUpdateTimestamp is
  modelled for decimal and hexadecimal notation over the char list of
  the string (exotic unicode whitespace and float precision loss are
  outside the model); String.prototype.trim is modelled by jsTrim.
* The require.cache invalidation lines are not given state of their
  own: no claim observes the module cache.
-/

set_option autoImplicit false

namespace ScriptsLoader

/-! ## Characters and decimal digits -/

/-- Decimal value of a char, none when the char is not a 0-9 digit. -/
def decVal? (c : Char) : Option Nat :=
  if c.isDigit then some (c.toNat - 48) else none

/-- Hexadecimal value of a char, none when it is not 0-9, a-f or A-F. -/
def hexVal? (c : Char) : Option Nat :=
  if c.isDigit then some (c.toNat - 48)
  else if 97 ≤ c.toNat ∧ c.toNat ≤ 102 then some (c.toNat - 87)
  else if 65 ≤ c.toNat ∧ c.toNat ≤ 70 then some (c.toNat - 55)
  else none

/-- Longest run of decimal digits at the front, folded into a number,
mirroring how parseInt accumulates digits and ignores the rest. -/
def parseDecAux : List Char → Nat → Nat
  | [], acc => acc
  | c :: cs, acc =>
    match decVal? c with
    | some d => parseDecAux cs (acc * 10 + d)
    | none => acc

/-- Decimal branch of parseInt: NaN (none) unless the first char is a
digit, else the value of the longest digit run. -/
def parseDecStart (cs : List Char) : Option Nat :=
  match cs with
  | [] => none
  | c :: _ => if (decVal? c).isSome then some (parseDecAux cs 0) else none

/-- Longest run of hexadecimal digits at the front, folded into a number. -/
def parseHexAux : List Char → Nat → Nat
  | [], acc => acc
  | c :: cs, acc =>
    match hexVal? c with
    | some d => parseHexAux cs (acc * 16 + d)
    | none => acc

/-- Hexadecimal branch of parseInt, entered after a 0x or 0X marker. -/
def parseHexStart (cs : List Char) : Option Nat :=
  match cs with
  | [] => none
  | c :: _ => if (hexVal? c).isSome then some (parseHexAux cs 0) else none

/-- Unsigned part of parseInt: a 0x or 0X marker selects the
hexadecimal branch, anything else the decimal branch. -/
def jsParseUnsigned (cs : List Char) : Option Nat :=
  match cs with
  | c0 :: c1 :: rest =>
    if c0 = '0' ∧ (c1 = 'x' ∨ c1 = 'X') then parseHexStart rest
    else parseDecStart (c0 :: c1 :: rest)
  | other => parseDecStart other

/-- parseInt after leading whitespace was skipped: an optional sign
followed by the unsigned part; none models NaN. -/
def jsParseIntChars (cs : List Char) : Option Int :=
  match cs with
  | [] => none
  | c :: rest =>
    if c = '-' then (jsParseUnsigned rest).map (fun n => -(n : Int))
    else if c = '+' then (jsParseUnsigned rest).map (fun n => (n : Int))
    else (jsParseUnsigned (c :: rest)).map (fun n => (n : Int))

/-- The JavaScript parseInt with radix undefined: skip leading
whitespace, then parse sign and digits; none models NaN. -/
def jsParseInt (s : String) : Option Int :=
  jsParseIntChars (s.data.dropWhile Char.isWhitespace)

/-- String.prototype.trim on the char list: drop whitespace at both ends. -/
def jsTrim (cs : List Char) : List Char :=
  ((cs.dropWhile Char.isWhitespace).reverse.dropWhile Char.isWhitespace).reverse

/-- String.prototype.trim as a String operation. -/
def jsTrimString (s : String) : String :=
  String.mk (jsTrim s.data)

/-- Decimal digits of a number, most significant first, accumulated in
front of acc; mirrors Number.prototype.toString for a nonnegative
integer. -/
def natDigitsAux (n : Nat) (acc : List Char) : List Char :=
  if n < 10 then Nat.digitChar (n % 10) :: acc
  else natDigitsAux (n / 10) (Nat.digitChar (n % 10) :: acc)
termination_by n
decreasing_by exact Nat.div_lt_self (by omega) (by omega)

/-- Decimal digit chars of a number, most significant first. -/
def natDigits (n : Nat) : List Char :=
  natDigitsAux n []

/-- Number.prototype.toString (radix 10) for the nonnegative integers
that carry Date values in this model. -/
def natToString (n : Nat) : String :=
  String.mk (natDigits n)

/-! ## Anchor store: loadLastUpdateTimestamp / saveLastUpdateTimestamp -/

/-- loadLastUpdateTimestamp of BaseScriptLoader. The timestamp file
content is file (none when the file does not exist), readOk tells
whether fs.readFileSync succeeds (a failed read is caught and falls
through to the default). The result is the Date value in ms: parse the
trimmed content with parseInt and accept it only when it is a number
greater than zero; every other path returns the Unix epoch 0. -/
def loadLastUpdateTimestamp (clean : Bool) (file : Option String) (readOk : Bool) : Nat :=
  match file with
  | none => 0
  | some content =>
    if ¬clean then
      if readOk then
        match jsParseInt (jsTrimString content) with
        | some n => if 0 < n then n.toNat else 0
        | none => 0
      else 0
    else 0

/-- saveLastUpdateTimestamp of BaseScriptLoader: write the decimal ms
value of the Date into the timestamp file; a failed write is caught and
leaves the file as it was. -/
def saveLastUpdateTimestamp (saveOk : Bool) (timestamp : Nat) (file : Option String) :
    Option String :=
  if saveOk then some (natToString timestamp) else file

/-! ## Data model of the loader -/

/-- ScriptInstance of BaseScriptLoader: the record metadata paired with
the live instance. The source field named instance is called inst here
because instance is a reserved word in Lean. -/
structure ScriptInstance (T K : Type) where
  metaData : K
  inst : T
deriving DecidableEq

/-- Association list lookup with Map.get semantics. -/
def assocGet {α : Type} : List (String × α) → String → Option α
  | [], _ => none
  | (k, v) :: rest, key => if k = key then some v else assocGet rest key

/-- Association list deletion with Map.delete semantics: every binding
of the key is removed. -/
def assocErase {α : Type} : List (String × α) → String → List (String × α)
  | [], _ => []
  | (k, v) :: rest, key =>
    if k = key then assocErase rest key else (k, v) :: assocErase rest key

/-- Association list update with Map.set semantics as observed through
assocGet: the key now maps to v and every other key is unchanged. -/
def assocSet {α : Type} (l : List (String × α)) (key : String) (v : α) :
    List (String × α) :=
  (key, v) :: assocErase l key

/-- The host supplied abstract methods of BaseScriptLoader together
with the oracles deciding whether each fallible environment operation
succeeds on a given record. -/
structure LoaderEnv (T K : Type) where
  isActiveScript : K → Bool
  isObsoletedScript : K → Bool
  getFileName : K → String
  getScriptKey : K → String
  getScriptText : K → String
  getNextAnchor : List K → Nat
  writeOk : K → Bool
  loadResult : K → Option T
  unlinkOk : K → Bool
  saveOk : Bool

/-- The mutable state of one BaseScriptLoader object together with the
durable state it owns: the scriptsCache map, the artifact files under
plugins/ (path to content), the timestamp file content, the anchor Date
in ms, and the isLoading reentrancy flag. -/
structure LoaderState (T K : Type) where
  scriptsCache : List (String × ScriptInstance T K)
  files : List (String × String)
  timestampFile : Option String
  anchor : Nat
  isLoading : Bool
deriving DecidableEq

/-- path.join(scriptDir, plugins, fileName + .js) relative to the
script directory. -/
def scriptFilePath {T K : Type} (e : LoaderEnv T K) (sd : K) : String :=
  "plugins/" ++ e.getFileName sd ++ ".js"

/-- get of BaseScriptLoader: read the cache, return the instance or a
non-present result (null in the source). -/
def get {T K : Type} (st : LoaderState T K) (key : String) : Option T :=
  (assocGet st.scriptsCache key).map (fun si => si.inst)

/-! ## Materializer: loadOrUpdateScript / removeScript -/

/-- loadOrUpdateScript of BaseScriptLoader. Write the record content to
the artifact path (writeOk false models a rejected fs.writeFile, caught
before the file changes), then require the module and instantiate its
default export (loadResult none models a throw anywhere in that
pipeline, including a non-invocable export); only on success is the
cache entry for the key replaced. Every error is caught and logged, so
the function always returns a state. -/
def loadOrUpdateScript {T K : Type} (e : LoaderEnv T K) (sd : K) (st : LoaderState T K) :
    LoaderState T K :=
  let key := e.getScriptKey sd
  let filePath := scriptFilePath e sd
  if e.writeOk sd then
    let st1 := { st with files := assocSet st.files filePath (e.getScriptText sd) }
    match e.loadResult sd with
    | some i => { st1 with scriptsCache := assocSet st1.scriptsCache key ⟨sd, i⟩ }
    | none => st1
  else st

/-- removeScript of BaseScriptLoader (with removeScriptFile inlined).
The existence check (fs.promises.access with a catch) decides whether
unlink runs; a failing unlink (unlinkOk false) is not caught here and
the exception propagates, which the Bool component of the result
records (true means an exception escaped). Only after the file step
does the cache deletion run. -/
def removeScript {T K : Type} (e : LoaderEnv T K) (sd : K) (st : LoaderState T K) :
    LoaderState T K × Bool :=
  let key := e.getScriptKey sd
  let filePath := scriptFilePath e sd
  if (assocGet st.files filePath).isSome then
    if e.unlinkOk sd then
      let st1 := { st with files := assocErase st.files filePath }
      ({ st1 with scriptsCache :=
          if (assocGet st1.scriptsCache key).isSome then assocErase st1.scriptsCache key
          else st1.scriptsCache }, false)
    else (st, true)
  else
    ({ st with scriptsCache :=
        if (assocGet st.scriptsCache key).isSome then assocErase st.scriptsCache key
        else st.scriptsCache }, false)

/-! ## Sync engine: processScriptUpdate / loadLatestScripts -/

/-- processScriptUpdate of BaseScriptLoader: the active predicate
routes to the activation path, otherwise the obsolete predicate routes
to the removal path, otherwise nothing happens. The Bool component
records whether an exception escaped (only the removal path can let
one escape). -/
def processScriptUpdate {T K : Type} (e : LoaderEnv T K) (sd : K) (st : LoaderState T K) :
    LoaderState T K × Bool :=
  if e.isActiveScript sd then (loadOrUpdateScript e sd st, false)
  else if e.isObsoletedScript sd then removeScript e sd st
  else (st, false)

/-- The for-loop over the batch in loadLatestScripts: records are
processed in order; an escaping exception stops the loop at the state
reached so far. -/
def processBatch {T K : Type} (e : LoaderEnv T K) :
    List K → LoaderState T K → LoaderState T K × Bool
  | [], st => (st, false)
  | sd :: rest, st =>
    let r := processScriptUpdate e sd st
    if r.2 then r else processBatch e rest r.1

/-- loadLatestScripts of BaseScriptLoader. fetched is the result of
awaiting getUpdatedScripts on the current anchor (error models a
rejected source query). The isLoading guard drops reentrant calls; the
try block processes a non-empty batch, advances the anchor to
getNextAnchor of the batch and persists it; the catch swallows any
escaping exception; the finally clears isLoading on every path. -/
def loadLatestScripts {T K : Type} (e : LoaderEnv T K) (fetched : Except Unit (List K))
    (st : LoaderState T K) : LoaderState T K :=
  if st.isLoading then st
  else
    let stL := { st with isLoading := true }
    match fetched with
    | Except.error _ => { stL with isLoading := false }
    | Except.ok scriptList =>
      if scriptList.length > 0 then
        let r := processBatch e scriptList stL
        if r.2 then { r.1 with isLoading := false }
        else
          let newAnchor := e.getNextAnchor scriptList
          { r.1 with
            anchor := newAnchor,
            timestampFile := saveLastUpdateTimestamp e.saveOk newAnchor r.1.timestampFile,
            isLoading := false }
      else { stL with isLoading := false }

/-- checkForUpdates of BaseScriptLoader: log and run one cycle of
loadLatestScripts (the timer tick body runs the same function). -/
def checkForUpdates {T K : Type} (e : LoaderEnv T K) (fetched : Except Unit (List K))
    (st : LoaderState T K) : LoaderState T K :=
  loadLatestScripts e fetched st

/-- A sequence of synchronization cycles, one fetch result per cycle. -/
def runCycles {T K : Type} (e : LoaderEnv T K) :
    List (Except Unit (List K)) → LoaderState T K → LoaderState T K
  | [], st => st
  | fr :: rest, st => runCycles e rest (loadLatestScripts e fr st)

/-- One step of the getNextAnchor contract of the spec: when the fetch
succeeds, the computed next anchor is at least the current anchor. -/
def contractStep {T K : Type} (e : LoaderEnv T K) (fr : Except Unit (List K))
    (st : LoaderState T K) : Bool :=
  match fr with
  | Except.ok l => decide (st.anchor ≤ e.getNextAnchor l)
  | Except.error _ => true

/-- The getNextAnchor contract of the spec instantiated along a run:
at each cycle whose fetch succeeds, the computed next anchor is at
least the anchor current at that point. -/
def contractHolds {T K : Type} (e : LoaderEnv T K) :
    List (Except Unit (List K)) → LoaderState T K → Bool
  | [], _ => true
  | fr :: rest, st =>
    contractStep e fr st && contractHolds e rest (loadLatestScripts e fr st)

/-- Modelled from the spec words (persisted anchor format: decimal
integer string): a string consisting of an optional sign followed by
one or more decimal digits. Used only to state what the claim calls
numeric content; the loader itself never evaluates this. -/
def isIntegerString (s : String) : Bool :=
  match s.data with
  | [] => false
  | c :: rest =>
    if c = '-' ∨ c = '+' then rest ≠ [] && rest.all Char.isDigit
    else (c :: rest).all Char.isDigit

/-! ## Concrete instances used to exercise the theorems -/

/-- A char produced by decimal rendering: a digit that none of the
sign, whitespace or hex-marker tests of parseInt can match. -/
def GoodDig (c : Char) : Prop :=
  c.isDigit = true ∧ c.isWhitespace = false ∧
  c ≠ '-' ∧ c ≠ '+' ∧ c ≠ 'x' ∧ c ≠ 'X'

/-- Host with one obsolete record 1 (artifact a, key ka) whose unlink
fails, and one active record 2 (artifact b, key kb) that loads fine. -/
def envC1 : LoaderEnv Unit Nat :=
  { isActiveScript := fun k => k == 2,
    isObsoletedScript := fun k => k == 1,
    getFileName := fun k => if k == 1 then "a" else "b",
    getScriptKey := fun k => if k == 1 then "ka" else "kb",
    getScriptText := fun _ => "text",
    getNextAnchor := fun _ => 5,
    writeOk := fun _ => true,
    loadResult := fun _ => some (),
    unlinkOk := fun _ => false,
    saveOk := true }

/-- Idle state holding the artifact of record 1 and an empty cache. -/
def stC1 : LoaderState Unit Nat :=
  { scriptsCache := [], files := [("plugins/a.js", "x")], timestampFile := none,
    anchor := 0, isLoading := false }

/-- The same durable state as stC1 but with a cycle in flight. -/
def stBusy : LoaderState Unit Nat :=
  { scriptsCache := [], files := [("plugins/a.js", "x")], timestampFile := none,
    anchor := 0, isLoading := true }

/-- Host whose records are all active but whose load pipeline fails
(the module does not export an invocable constructor). -/
def envC2 : LoaderEnv Unit Nat :=
  { isActiveScript := fun _ => true,
    isObsoletedScript := fun _ => false,
    getFileName := fun _ => "b",
    getScriptKey := fun _ => "kb",
    getScriptText := fun _ => "text",
    getNextAnchor := fun _ => 5,
    writeOk := fun _ => true,
    loadResult := fun _ => none,
    unlinkOk := fun _ => true,
    saveOk := true }

/-- State with a working cached instance under kb (metadata from an
earlier record 1) and the matching old artifact content. -/
def stC2 : LoaderState Unit Nat :=
  { scriptsCache := [("kb", ⟨1, ()⟩)], files := [("plugins/b.js", "old")],
    timestampFile := none, anchor := 0, isLoading := false }

/-- Host whose records are all active and load fine, but whose
timestamp file write fails. -/
def envC4 : LoaderEnv Unit Nat :=
  { isActiveScript := fun _ => true,
    isObsoletedScript := fun _ => false,
    getFileName := fun _ => "b",
    getScriptKey := fun _ => "kb",
    getScriptText := fun _ => "text",
    getNextAnchor := fun _ => 7,
    writeOk := fun _ => true,
    loadResult := fun _ => some (),
    unlinkOk := fun _ => true,
    saveOk := false }

/-- Fresh idle state: nothing cached, nothing on disk. -/
def stC4 : LoaderState Unit Nat :=
  { scriptsCache := [], files := [], timestampFile := none,
    anchor := 0, isLoading := false }

/-- Host with one obsolete record 1 (artifact a, key ka) whose unlink
succeeds. -/
def envC7 : LoaderEnv Unit Nat :=
  { isActiveScript := fun _ => false,
    isObsoletedScript := fun k => k == 1,
    getFileName := fun _ => "a",
    getScriptKey := fun _ => "ka",
    getScriptText := fun _ => "",
    getNextAnchor := fun _ => 5,
    writeOk := fun _ => true,
    loadResult := fun _ => some (),
    unlinkOk := fun _ => true,
    saveOk := true }

/-- State holding both the artifact and the cache entry of record 1. -/
def stC7 : LoaderState Unit Nat :=
  { scriptsCache := [("ka", ⟨1, ()⟩)], files := [("plugins/a.js", "x")],
    timestampFile := none, anchor := 0, isLoading := false }

/-- Host for which record 3 is both active and obsolete, while record
4 matches neither predicate. -/
def envC8 : LoaderEnv Unit Nat :=
  { isActiveScript := fun k => k == 3,
    isObsoletedScript := fun k => k == 3,
    getFileName := fun _ => "c",
    getScriptKey := fun _ => "kc",
    getScriptText := fun _ => "text",
    getNextAnchor := fun _ => 5,
    writeOk := fun _ => true,
    loadResult := fun _ => some (),
    unlinkOk := fun _ => true,
    saveOk := true }

/-- State whose cache holds an instance for kc, to show an activation
routed for a record that is both active and obsolete. -/
def stC8 : LoaderState Unit Nat :=
  { scriptsCache := [("kc", ⟨1, ()⟩)], files := [("plugins/c.js", "old")],
    timestampFile := none, anchor := 0, isLoading := false }

/-- Host whose active record 2 writes its artifact successfully but
then fails to produce an invocable constructor. -/
def envC10 : LoaderEnv Unit Nat :=
  { isActiveScript := fun _ => true,
    isObsoletedScript := fun _ => false,
    getFileName := fun _ => "b",
    getScriptKey := fun _ => "kb",
    getScriptText := fun _ => "new",
    getNextAnchor := fun _ => 5,
    writeOk := fun _ => true,
    loadResult := fun _ => none,
    unlinkOk := fun _ => true,
    saveOk := true }

/-- State holding the prior instance for kb (metadata of an earlier
record 1) and the matching prior artifact content. -/
def stC10 : LoaderState Unit Nat :=
  { scriptsCache := [("kb", ⟨1, ()⟩)], files := [("plugins/b.js", "old")],
    timestampFile := none, anchor := 0, isLoading := false }

/-! ## Helper lemmas: association lists -/

theorem assocGet_erase_self {α : Type} (l : List (String × α)) (k : String) :
    assocGet (assocErase l k) k = none := by
  induction l with
  | nil => rfl
  | cons p rest ih =>
    obtain ⟨k0, v0⟩ := p
    by_cases h : k0 = k
    · simpa [assocErase, h] using ih
    · simpa [assocErase, assocGet, h] using ih

theorem assocGet_set_self {α : Type} (l : List (String × α)) (k : String) (v : α) :
    assocGet (assocSet l k v) k = some v := by
  simp [assocSet, assocGet]

/-! ## Helper lemmas: frame facts of the per-record operations -/

theorem loadOrUpdateScript_frame {T K : Type} (e : LoaderEnv T K) (sd : K)
    (st : LoaderState T K) :
    (loadOrUpdateScript e sd st).anchor = st.anchor ∧
    (loadOrUpdateScript e sd st).timestampFile = st.timestampFile ∧
    (loadOrUpdateScript e sd st).isLoading = st.isLoading := by
  unfold loadOrUpdateScript
  by_cases hw : e.writeOk sd
  · simp only [hw, if_true]
    cases e.loadResult sd <;> simp
  · simp [hw]

theorem removeScript_frame {T K : Type} (e : LoaderEnv T K) (sd : K)
    (st : LoaderState T K) :
    (removeScript e sd st).1.anchor = st.anchor ∧
    (removeScript e sd st).1.timestampFile = st.timestampFile ∧
    (removeScript e sd st).1.isLoading = st.isLoading := by
  unfold removeScript
  by_cases hf : (assocGet st.files (scriptFilePath e sd)).isSome
  · by_cases hu : e.unlinkOk sd
    · simp [hf, hu]
    · simp [hf, hu]
  · simp [hf]

theorem processScriptUpdate_frame {T K : Type} (e : LoaderEnv T K) (sd : K)
    (st : LoaderState T K) :
    (processScriptUpdate e sd st).1.anchor = st.anchor ∧
    (processScriptUpdate e sd st).1.timestampFile = st.timestampFile ∧
    (processScriptUpdate e sd st).1.isLoading = st.isLoading := by
  unfold processScriptUpdate
  by_cases ha : e.isActiveScript sd
  · simpa [ha] using loadOrUpdateScript_frame e sd st
  · by_cases ho : e.isObsoletedScript sd
    · simpa [ha, ho] using removeScript_frame e sd st
    · simp [ha, ho]

theorem processBatch_frame {T K : Type} (e : LoaderEnv T K) (l : List K) :
    ∀ st : LoaderState T K,
      (processBatch e l st).1.anchor = st.anchor ∧
      (processBatch e l st).1.timestampFile = st.timestampFile ∧
      (processBatch e l st).1.isLoading = st.isLoading := by
  induction l with
  | nil => intro st; exact ⟨rfl, rfl, rfl⟩
  | cons sd rest ih =>
    intro st
    have hf := processScriptUpdate_frame e sd st
    by_cases hthrow : (processScriptUpdate e sd st).2
    · simpa [processBatch, hthrow] using hf
    · have hr := ih (processScriptUpdate e sd st).1
      simp only [processBatch, hthrow, if_false, Bool.false_eq_true]
      exact ⟨hr.1.trans hf.1, hr.2.1.trans hf.2.1, hr.2.2.trans hf.2.2⟩

/-! ## Helper lemmas: which per-record operations can throw -/

theorem processScriptUpdate_noThrow {T K : Type} (e : LoaderEnv T K) (sd : K)
    (st : LoaderState T K)
    (h : e.isActiveScript sd = true ∨ e.unlinkOk sd = true) :
    (processScriptUpdate e sd st).2 = false := by
  unfold processScriptUpdate removeScript
  by_cases ha : e.isActiveScript sd
  · simp [ha]
  · rcases h with h | h
    · exact absurd h ha
    · by_cases ho : e.isObsoletedScript sd
      · simp only [ha, ho, if_false, if_true, Bool.false_eq_true]
        split
        · simp [h]
        · simp
      · simp [ha, ho]

theorem processBatch_noThrow {T K : Type} (e : LoaderEnv T K) (l : List K)
    (h : ∀ sd ∈ l, e.isActiveScript sd = true ∨ e.unlinkOk sd = true) :
    ∀ st : LoaderState T K, (processBatch e l st).2 = false := by
  induction l with
  | nil => intro st; rfl
  | cons sd rest ih =>
    intro st
    have h1 := processScriptUpdate_noThrow e sd st (h sd (by simp))
    have h2 := ih (fun x hx => h x (by simp [hx]))
    simp [processBatch, h1, h2]

/-! ## Helper lemmas: shape of one synchronization cycle -/

theorem loadLatestScripts_guard {T K : Type} (e : LoaderEnv T K)
    (fetched : Except Unit (List K)) (st : LoaderState T K)
    (h : st.isLoading = true) : loadLatestScripts e fetched st = st := by
  simp [loadLatestScripts, h]

theorem loadLatestScripts_isLoading {T K : Type} (e : LoaderEnv T K)
    (fetched : Except Unit (List K)) (st : LoaderState T K) :
    (loadLatestScripts e fetched st).isLoading = st.isLoading := by
  unfold loadLatestScripts
  by_cases h : st.isLoading
  · simp [h]
  · simp only [h, if_false, Bool.false_eq_true]
    cases fetched with
    | error u => simp [(Bool.not_eq_true _).mp h]
    | ok l =>
      by_cases hl : l.length > 0
      · simp only [hl, if_true]
        split <;> simp [(Bool.not_eq_true _).mp h]
      · simp [hl, (Bool.not_eq_true _).mp h]

theorem loadLatestScripts_success {T K : Type} (e : LoaderEnv T K) (l : List K)
    (st : LoaderState T K) (hIdle : st.isLoading = false) (hne : l ≠ [])
    (hok : (processBatch e l { st with isLoading := true }).2 = false) :
    loadLatestScripts e (Except.ok l) st =
      { (processBatch e l { st with isLoading := true }).1 with
        anchor := e.getNextAnchor l,
        timestampFile := saveLastUpdateTimestamp e.saveOk (e.getNextAnchor l)
          ((processBatch e l { st with isLoading := true }).1.timestampFile),
        isLoading := false } := by
  have hl : l.length > 0 := List.length_pos.mpr hne
  simp [loadLatestScripts, hIdle, hl, hok]

theorem loadLatestScripts_anchor_cases {T K : Type} (e : LoaderEnv T K)
    (fetched : Except Unit (List K)) (st : LoaderState T K) :
    (loadLatestScripts e fetched st).anchor = st.anchor ∨
    ∃ l, fetched = Except.ok l ∧
      (loadLatestScripts e fetched st).anchor = e.getNextAnchor l := by
  unfold loadLatestScripts
  by_cases h : st.isLoading
  · left; simp [h]
  · simp only [h, if_false, Bool.false_eq_true]
    cases fetched with
    | error u => left; simp
    | ok l =>
      by_cases hl : l.length > 0
      · simp only [hl, if_true]
        by_cases hthrow : (processBatch e l { st with isLoading := true }).2
        · left
          have := (processBatch_frame e l { st with isLoading := true }).1
          simpa [hthrow] using this
        · right
          exact ⟨l, rfl, by simp [hthrow]⟩
      · left; simp [hl]

theorem loadLatestScripts_anchor_mono {T K : Type} (e : LoaderEnv T K)
    (fetched : Except Unit (List K)) (st : LoaderState T K)
    (h : ∀ l, fetched = Except.ok l → st.anchor ≤ e.getNextAnchor l) :
    st.anchor ≤ (loadLatestScripts e fetched st).anchor := by
  rcases loadLatestScripts_anchor_cases e fetched st with hc | ⟨l, hfr, hc⟩
  · exact hc ▸ Nat.le_refl _
  · exact hc ▸ h l hfr

theorem runCycles_anchor_mono {T K : Type} (e : LoaderEnv T K) :
    ∀ (frs : List (Except Unit (List K))) (st : LoaderState T K),
      contractHolds e frs st = true → st.anchor ≤ (runCycles e frs st).anchor := by
  intro frs
  induction frs with
  | nil => intro st _; exact Nat.le_refl _
  | cons fr rest ih =>
    intro st h
    simp only [contractHolds, Bool.and_eq_true] at h
    have step : st.anchor ≤ (loadLatestScripts e fr st).anchor := by
      apply loadLatestScripts_anchor_mono
      intro l hl
      subst hl
      simpa [contractStep] using h.1
    exact Nat.le_trans step (ih (loadLatestScripts e fr st) h.2)

/-! ## Helper lemmas: decimal rendering and parsing round-trip -/

theorem digitChar_good (d : Nat) (h : d < 10) :
    GoodDig (Nat.digitChar d) ∧ decVal? (Nat.digitChar d) = some d := by
  unfold GoodDig
  interval_cases d <;> decide

theorem GoodDig_decSome (c : Char) (h : GoodDig c) : (decVal? c).isSome := by
  simp [decVal?, h.1]

theorem natDigitsAux_append (n : Nat) : ∀ acc, natDigitsAux n acc = natDigits n ++ acc := by
  induction n using Nat.strong_induction_on with
  | _ n ih =>
    intro acc
    by_cases h : n < 10
    · rw [natDigitsAux, if_pos h]
      unfold natDigits
      rw [natDigitsAux, if_pos h]
      rfl
    · have hlt : n / 10 < n := Nat.div_lt_self (by omega) (by omega)
      rw [natDigitsAux, if_neg h, ih (n / 10) hlt]
      conv_rhs => rw [natDigits, natDigitsAux, if_neg h, ih (n / 10) hlt]
      simp

theorem natDigits_ne_nil (n : Nat) : natDigits n ≠ [] := by
  unfold natDigits
  rw [natDigitsAux]
  by_cases h : n < 10
  · simp [h]
  · rw [if_neg h, natDigitsAux_append]
    simp

theorem natDigitsAux_good (n : Nat) :
    ∀ acc, (∀ c ∈ acc, GoodDig c) → ∀ c ∈ natDigitsAux n acc, GoodDig c := by
  induction n using Nat.strong_induction_on with
  | _ n ih =>
    intro acc hacc
    have hd : GoodDig (Nat.digitChar (n % 10)) :=
      (digitChar_good (n % 10) (Nat.mod_lt _ (by omega))).1
    by_cases h : n < 10
    · rw [natDigitsAux, if_pos h]
      intro c hc
      rcases List.mem_cons.mp hc with hc | hc
      · exact hc ▸ hd
      · exact hacc c hc
    · have hlt : n / 10 < n := Nat.div_lt_self (by omega) (by omega)
      rw [natDigitsAux, if_neg h]
      refine ih (n / 10) hlt _ ?_
      intro c hc
      rcases List.mem_cons.mp hc with hc | hc
      · exact hc ▸ hd
      · exact hacc c hc

theorem natDigits_good (n : Nat) : ∀ c ∈ natDigits n, GoodDig c :=
  natDigitsAux_good n [] (by intro c hc; cases hc)

theorem parseDecAux_append (xs ys : List Char) (hxs : ∀ c ∈ xs, (decVal? c).isSome) :
    ∀ v, parseDecAux (xs ++ ys) v = parseDecAux ys (parseDecAux xs v) := by
  induction xs with
  | nil => intro v; rfl
  | cons c cs ih =>
    intro v
    obtain ⟨d, hd⟩ := Option.isSome_iff_exists.mp (hxs c (by simp))
    simp only [List.cons_append, parseDecAux, hd]
    exact ih (fun x hx => hxs x (by simp [hx])) _

theorem parseDec_natDigits (n : Nat) :
    ∀ v, parseDecAux (natDigits n) v = v * 10 ^ (natDigits n).length + n := by
  induction n using Nat.strong_induction_on with
  | _ n ih =>
    intro v
    by_cases h : n < 10
    · have hdig : natDigits n = [Nat.digitChar (n % 10)] := by
        unfold natDigits
        rw [natDigitsAux, if_pos h]
      have hd := (digitChar_good (n % 10) (Nat.mod_lt _ (by omega))).2
      rw [hdig]
      simp only [parseDecAux, hd, List.length_singleton, pow_one]
      omega
    · have hlt : n / 10 < n := Nat.div_lt_self (by omega) (by omega)
      have hsplit : natDigits n = natDigits (n / 10) ++ [Nat.digitChar (n % 10)] := by
        unfold natDigits
        rw [natDigitsAux, if_neg h, natDigitsAux_append]
        rfl
      have hgood : ∀ c ∈ natDigits (n / 10), (decVal? c).isSome :=
        fun c hc => GoodDig_decSome c (natDigits_good _ c hc)
      have hd := (digitChar_good (n % 10) (Nat.mod_lt _ (by omega))).2
      rw [hsplit, parseDecAux_append _ _ hgood, ih (n / 10) hlt v]
      simp only [parseDecAux, hd, List.length_append, List.length_singleton]
      have hpow : 10 ^ ((natDigits (n / 10)).length + 1) =
          10 ^ (natDigits (n / 10)).length * 10 := pow_succ 10 _
      rw [hpow]
      have hdm : n / 10 * 10 + n % 10 = n := by omega
      calc (v * 10 ^ (natDigits (n / 10)).length + n / 10) * 10 + n % 10
          = v * (10 ^ (natDigits (n / 10)).length * 10) + (n / 10 * 10 + n % 10) := by ring
        _ = v * (10 ^ (natDigits (n / 10)).length * 10) + n := by rw [hdm]

theorem dropWhile_good (l : List Char) (h : ∀ c ∈ l, GoodDig c) :
    l.dropWhile Char.isWhitespace = l := by
  cases l with
  | nil => rfl
  | cons c cs => simp [List.dropWhile_cons, (h c (by simp)).2.1]

theorem jsTrim_good (l : List Char) (h : ∀ c ∈ l, GoodDig c) : jsTrim l = l := by
  unfold jsTrim
  rw [dropWhile_good l h,
    dropWhile_good l.reverse (fun c hc => h c (List.mem_reverse.mp hc)),
    List.reverse_reverse]

theorem jsParseInt_natToString (n : Nat) : jsParseInt (natToString n) = some (n : Int) := by
  have hgoodall := natDigits_good n
  obtain ⟨c, cs, hcons⟩ := List.exists_cons_of_ne_nil (natDigits_ne_nil n)
  have hc : GoodDig c := hgoodall c (hcons ▸ List.mem_cons_self c cs)
  unfold jsParseInt natToString
  rw [show (String.mk (natDigits n)).data = natDigits n from rfl,
    dropWhile_good _ hgoodall]
  have hvalue : parseDecStart (natDigits n) = some n := by
    rw [hcons]
    simp only [parseDecStart, GoodDig_decSome c hc, if_true]
    rw [← hcons, parseDec_natDigits n 0]
    simp
  have hunsigned : jsParseUnsigned (natDigits n) = some n := by
    rw [hcons]
    cases cs with
    | nil => simpa [jsParseUnsigned, ← hcons] using hvalue
    | cons c1 cs1 =>
      have hc1 : GoodDig c1 := hgoodall c1 (by rw [hcons]; simp)
      have hcond : ¬(c = '0' ∧ (c1 = 'x' ∨ c1 = 'X')) := by
        rintro ⟨-, h1 | h1⟩
        · exact hc1.2.2.2.2.1 h1
        · exact hc1.2.2.2.2.2 h1
      simpa [jsParseUnsigned, hcond, ← hcons] using hvalue
  rw [hcons]
  simp only [jsParseIntChars, if_neg (fun hh => hc.2.2.1 hh), if_neg (fun hh => hc.2.2.2.1 hh)]
  rw [← hcons, hunsigned]
  rfl

/-! ## Claims -/

/-- C1, counterexample: with an obsolete record 1 whose artifact exists
but whose unlink fails, followed by an active record 2, the cycle on
the batch consisting of records 1 and 2 aborts at record 1: record 2
is never activated (its key kb is absent from the cache), the anchor is
not advanced to getNextAnchor of the batch, and nothing is persisted.
This refutes the claim that a removal-path delete failure lets
processing continue and never prevents the next-anchor computation. -/
theorem claim_C1_counterexample :
    (loadLatestScripts envC1 (Except.ok [1, 2]) stC1).anchor ≠ envC1.getNextAnchor [1, 2] ∧
    assocGet (loadLatestScripts envC1 (Except.ok [1, 2]) stC1).scriptsCache "kb" = none ∧
    (loadLatestScripts envC1 (Except.ok [1, 2]) stC1).timestampFile = none := by
  decide

/-- C1, amended: failures on the activation path are logged and
isolated (no hypothesis on writeOk or loadResult is needed), so when
every record of the batch is either on the activation path or has a
succeeding unlink, the batch runs to completion without an escaping
exception, the anchor advances to getNextAnchor of the batch, and when
the timestamp write succeeds the new anchor is persisted. A failing
artifact delete on the removal path, however, aborts the remainder of
the batch (see the counterexample). -/
theorem claim_C1_amended {T K : Type} (e : LoaderEnv T K) (l : List K)
    (st : LoaderState T K) (hIdle : st.isLoading = false)
    (hrem : ∀ sd ∈ l, e.isActiveScript sd = true ∨ e.unlinkOk sd = true)
    (hne : l ≠ []) :
    (processBatch e l { st with isLoading := true }).2 = false ∧
    (loadLatestScripts e (Except.ok l) st).anchor = e.getNextAnchor l ∧
    (e.saveOk = true →
      (loadLatestScripts e (Except.ok l) st).timestampFile =
        some (natToString (e.getNextAnchor l))) := by
  have hok := processBatch_noThrow e l hrem { st with isLoading := true }
  have hsucc := loadLatestScripts_success e l st hIdle hne hok
  refine ⟨hok, by rw [hsucc], ?_⟩
  intro hsave
  rw [hsucc]
  simp [saveLastUpdateTimestamp, hsave]

/-- C1 witness: a batch holding only the active record 2, run from the
idle state stC1, completes, advances the anchor and persists it. -/
theorem claim_C1_witness :
    (processBatch envC1 [2] { stC1 with isLoading := true }).2 = false ∧
    (loadLatestScripts envC1 (Except.ok [2]) stC1).anchor = envC1.getNextAnchor [2] ∧
    (envC1.saveOk = true →
      (loadLatestScripts envC1 (Except.ok [2]) stC1).timestampFile =
        some (natToString (envC1.getNextAnchor [2]))) :=
  claim_C1_amended envC1 [2] stC1 rfl (by decide) (by decide)

/-- C2: on the activation path, if the artifact write fails or the
loaded module yields no invocable constructor, the cache is left
exactly as it was: a failed activation never evicts or replaces a
cached instance. -/
theorem claim_C2 {T K : Type} (e : LoaderEnv T K) (sd : K) (st : LoaderState T K)
    (hact : e.isActiveScript sd = true)
    (hfail : e.writeOk sd = false ∨ e.loadResult sd = none) :
    (processScriptUpdate e sd st).1.scriptsCache = st.scriptsCache := by
  simp only [processScriptUpdate, hact, if_true]
  unfold loadOrUpdateScript
  rcases hfail with h | h
  · simp [h]
  · by_cases hw : e.writeOk sd
    · simp [hw, h]
    · simp [hw]

/-- C2 witness: the active record 1 of envC2 fails to load, and the
working entry cached under kb in stC2 is untouched. -/
theorem claim_C2_witness :
    (processScriptUpdate envC2 1 stC2).1.scriptsCache = stC2.scriptsCache :=
  claim_C2 envC2 1 stC2 rfl (Or.inr rfl)

/-- C3: a trigger that arrives while a cycle is in flight (isLoading
true) returns immediately with the state unchanged and without error
(checkForUpdates is a total function), and on every exit path the
isLoading flag ends equal to its entry value, in particular false
whenever the cycle was actually entered from the idle state, so a
later trigger can start a new cycle. -/
theorem claim_C3 {T K : Type} (e : LoaderEnv T K) (fetched : Except Unit (List K))
    (st : LoaderState T K) :
    (st.isLoading = true → checkForUpdates e fetched st = st) ∧
    (checkForUpdates e fetched st).isLoading = st.isLoading := by
  refine ⟨fun h => loadLatestScripts_guard e fetched st h, ?_⟩
  exact loadLatestScripts_isLoading e fetched st

/-- C3 witness: a manual trigger against the busy state stBusy is
dropped without any state change. -/
theorem claim_C3_witness :
    checkForUpdates envC1 (Except.ok [2]) stBusy = stBusy :=
  (claim_C3 envC1 (Except.ok [2]) stBusy).1 rfl

/-- C4, counterexample: with a host whose timestamp write fails
(envC4), a cycle over the non-empty batch consisting of record 2
advances the in-memory anchor to getNextAnchor of the batch, yet the
timestamp file still holds nothing: the value is not persisted,
refuting the unconditional persistence part of the claim (the spec
itself calls a failed save recoverable with only the in-memory anchor
advancing). -/
theorem claim_C4_counterexample :
    (loadLatestScripts envC4 (Except.ok [2]) stC4).anchor = envC4.getNextAnchor [2] ∧
    (loadLatestScripts envC4 (Except.ok [2]) stC4).timestampFile ≠
      some (natToString (envC4.getNextAnchor [2])) := by
  refine ⟨by decide, fun hcontra => ?_⟩
  rw [show (loadLatestScripts envC4 (Except.ok [2]) stC4).timestampFile = none by decide]
    at hcontra
  exact Option.noConfusion hcontra

/-- C4, amended: when every getNextAnchor result along a run is at
least the anchor current at its call (the contract of the spec), the
anchor is monotonically non-decreasing across any sequence of cycles;
and after a cycle entered from idle whose batch is non-empty and whose
per-record processing completes without an escaping exception, the
in-memory anchor equals getNextAnchor of that batch and, when the
timestamp write succeeds, that value is persisted. -/
theorem claim_C4_amended {T K : Type} (e : LoaderEnv T K) :
    (∀ (frs : List (Except Unit (List K))) (st : LoaderState T K),
      contractHolds e frs st = true → st.anchor ≤ (runCycles e frs st).anchor) ∧
    (∀ (l : List K) (st : LoaderState T K),
      st.isLoading = false → l ≠ [] →
      (processBatch e l { st with isLoading := true }).2 = false →
      (loadLatestScripts e (Except.ok l) st).anchor = e.getNextAnchor l ∧
      (e.saveOk = true →
        (loadLatestScripts e (Except.ok l) st).timestampFile =
          some (natToString (e.getNextAnchor l)))) := by
  refine ⟨runCycles_anchor_mono e, ?_⟩
  intro l st hIdle hne hok
  have hsucc := loadLatestScripts_success e l st hIdle hne hok
  refine ⟨by rw [hsucc], ?_⟩
  intro hsave
  rw [hsucc]
  simp [saveLastUpdateTimestamp, hsave]

/-- C4 witness: a one-cycle run of envC1 satisfying the contract keeps
the anchor non-decreasing, and the concrete cycle over the batch with
record 2 sets the anchor to getNextAnchor of the batch. -/
theorem claim_C4_witness :
    stC1.anchor ≤ (runCycles envC1 [Except.ok [2]] stC1).anchor ∧
    (loadLatestScripts envC1 (Except.ok [2]) stC1).anchor = envC1.getNextAnchor [2] :=
  ⟨(claim_C4_amended envC1).1 [Except.ok [2]] stC1 (by decide),
   ((claim_C4_amended envC1).2 [2] stC1 rfl (by decide) (by decide)).1⟩

/-- C5: a cycle whose source query returns the empty list ends with no
side effects at all: the resulting state, including the cache map, the
artifact files, the in-memory anchor, the timestamp file and the
isLoading flag, is exactly the input state. -/
theorem claim_C5 {T K : Type} (e : LoaderEnv T K) (st : LoaderState T K) :
    loadLatestScripts e (Except.ok []) st = st := by
  obtain ⟨c, f, t, a, il⟩ := st
  cases il <;> rfl

/-- C6, counterexample: the trimmed content 123abc is not a decimal
integer string, yet load returns 123 rather than the domain minimum 0:
parseInt accepts the leading digit run of mixed content, refuting the
claim that non-numeric content always yields the minimum. -/
theorem claim_C6_counterexample :
    isIntegerString (jsTrimString "123abc") = false ∧
    loadLastUpdateTimestamp false (some "123abc") true ≠ 0 := by
  decide

/-- C6, amended: load never throws (it is a total function) and
returns the domain minimum 0 whenever resetToDefault is true, the file
is absent, or the read fails; for present readable content it returns
the minimum when parseInt of the trimmed content is NaN or non-positive
and otherwise the parseInt value itself, which for mixed content such
as 123abc is the leading digit run rather than the minimum. -/
theorem claim_C6_amended (clean : Bool) (file : Option String) (readOk : Bool) :
    ((clean = true ∨ file = none ∨ readOk = false) →
      loadLastUpdateTimestamp clean file readOk = 0) ∧
    (∀ s : String, file = some s → clean = false → readOk = true →
      ((jsParseInt (jsTrimString s) = none →
          loadLastUpdateTimestamp clean file readOk = 0) ∧
       (∀ n : Int, jsParseInt (jsTrimString s) = some n →
          (n ≤ 0 → loadLastUpdateTimestamp clean file readOk = 0) ∧
          (0 < n → loadLastUpdateTimestamp clean file readOk = n.toNat)))) := by
  constructor
  · intro h
    rcases h with h | h | h
    · subst h
      cases file <;> rfl
    · subst h
      rfl
    · subst h
      cases file with
      | none => rfl
      | some s => cases clean <;> rfl
  · intro s hfile hclean hread
    subst hfile
    subst hclean
    subst hread
    have hdef : loadLastUpdateTimestamp false (some s) true =
        (match jsParseInt (jsTrimString s) with
         | some m => if 0 < m then m.toNat else 0
         | none => 0) := rfl
    constructor
    · intro hnone
      rw [hdef, hnone]
    · intro n hn
      constructor
      · intro hle
        rw [hdef, hn]
        simp only [if_neg (by omega : ¬(0 : Int) < n)]
      · intro hpos
        rw [hdef, hn]
        simp only [if_pos hpos]

/-- C6 witness: content consisting of the digits 42 with surrounding
whitespace loads as 42. -/
theorem claim_C6_witness :
    loadLastUpdateTimestamp false (some " 42 ") true = Int.toNat 42 := by
  have h := ((claim_C6_amended false (some " 42 ") true).2 " 42 " rfl rfl rfl).2 42 (by decide)
  exact h.2 (by decide)

/-- C7: for a record routed to the removal path (not active, obsolete)
whose removal completes without an escaping exception, the artifact
file at the derived path is gone afterwards (deleted if present,
no-op if absent) and the cache entry for the key is gone, so get on
the key returns a non-present result. -/
theorem claim_C7 {T K : Type} (e : LoaderEnv T K) (sd : K) (st : LoaderState T K)
    (hact : e.isActiveScript sd = false) (hobs : e.isObsoletedScript sd = true)
    (hdone : (processScriptUpdate e sd st).2 = false) :
    assocGet (processScriptUpdate e sd st).1.files (scriptFilePath e sd) = none ∧
    get (processScriptUpdate e sd st).1 (e.getScriptKey sd) = none := by
  have hred : processScriptUpdate e sd st = removeScript e sd st := by
    simp [processScriptUpdate, hact, hobs]
  rw [hred] at hdone ⊢
  unfold removeScript at hdone ⊢
  by_cases hf : (assocGet st.files (scriptFilePath e sd)).isSome
  · by_cases hu : e.unlinkOk sd
    · simp only [hf, hu, if_true]
      constructor
      · exact assocGet_erase_self st.files (scriptFilePath e sd)
      · by_cases hck : (assocGet st.scriptsCache (e.getScriptKey sd)).isSome
        · simp [get, hck, assocGet_erase_self]
        · simp [get, hck, Option.not_isSome_iff_eq_none.mp hck]
    · rw [if_pos hf, if_neg hu] at hdone
      exact absurd hdone (by simp)
  · simp only [hf, if_false]
    constructor
    · exact Option.not_isSome_iff_eq_none.mp hf
    · by_cases hck : (assocGet st.scriptsCache (e.getScriptKey sd)).isSome
      · simp [get, hck, assocGet_erase_self]
      · simp [get, hck, Option.not_isSome_iff_eq_none.mp hck]

/-- C7 witness: retiring the obsolete record 1 from stC7 removes both
the artifact at plugins/a.js and the cache entry under ka. -/
theorem claim_C7_witness :
    assocGet (processScriptUpdate envC7 1 stC7).1.files (scriptFilePath envC7 1) = none ∧
    get (processScriptUpdate envC7 1 stC7).1 (envC7.getScriptKey 1) = none :=
  claim_C7 envC7 1 stC7 rfl rfl (by decide)

/-- C8: an active record takes the activation path and nothing else,
regardless of the obsolete predicate (no hypothesis on it appears),
and a record matching neither predicate causes no change and no
exception. -/
theorem claim_C8 {T K : Type} (e : LoaderEnv T K) (sd : K) (st : LoaderState T K) :
    (e.isActiveScript sd = true →
      processScriptUpdate e sd st = (loadOrUpdateScript e sd st, false)) ∧
    (e.isActiveScript sd = false → e.isObsoletedScript sd = false →
      processScriptUpdate e sd st = (st, false)) := by
  constructor
  · intro h
    simp [processScriptUpdate, h]
  · intro h1 h2
    simp [processScriptUpdate, h1, h2]

/-- C8 witness: record 3 of envC8 is both active and obsolete and is
routed to activation, while record 4 matches neither predicate and
leaves the state untouched. -/
theorem claim_C8_witness :
    processScriptUpdate envC8 3 stC8 = (loadOrUpdateScript envC8 3 stC8, false) ∧
    processScriptUpdate envC8 4 stC8 = (stC8, false) :=
  ⟨(claim_C8 envC8 3 stC8).1 rfl, (claim_C8 envC8 4 stC8).2 rfl rfl⟩

/-- C10: when the artifact write succeeds but the load step then fails
to produce an invocable constructor, the artifact on disk holds the
new content of the failing record while the cache is unchanged and so
keeps the prior instance: artifact and cached instance for the same
identity are out of sync. -/
theorem claim_C10 {T K : Type} (e : LoaderEnv T K) (sd : K) (st : LoaderState T K)
    (hact : e.isActiveScript sd = true) (hw : e.writeOk sd = true)
    (hload : e.loadResult sd = none) :
    assocGet (processScriptUpdate e sd st).1.files (scriptFilePath e sd) =
      some (e.getScriptText sd) ∧
    (processScriptUpdate e sd st).1.scriptsCache = st.scriptsCache := by
  simp only [processScriptUpdate, hact, if_true]
  unfold loadOrUpdateScript
  simp only [hw, if_true, hload]
  exact ⟨assocGet_set_self _ _ _, trivial⟩

/-- C10 witness: record 2 of envC10 writes the new artifact content
but fails to load; the file under plugins/b.js now holds new while kb
still maps to the prior instance of stC10. -/
theorem claim_C10_witness :
    assocGet (processScriptUpdate envC10 2 stC10).1.files (scriptFilePath envC10 2) =
      some (envC10.getScriptText 2) ∧
    (processScriptUpdate envC10 2 stC10).1.scriptsCache = stC10.scriptsCache :=
  claim_C10 envC10 2 stC10 rfl rfl rfl

/-- C9: the anchor store round-trips: saving any anchor value (a time
at or after the Unix epoch, in ms) and then loading with
resetToDefault false from the resulting file yields exactly the saved
value. -/
theorem claim_C9 (a : Nat) (file : Option String) :
    loadLastUpdateTimestamp false (saveLastUpdateTimestamp true a file) true = a := by
  unfold saveLastUpdateTimestamp
  rw [if_pos rfl]
  have htrim : jsTrimString (natToString a) = natToString a := by
    unfold jsTrimString
    rw [show (natToString a).data = natDigits a from rfl, jsTrim_good _ (natDigits_good a)]
    rfl
  have hdef : loadLastUpdateTimestamp false (some (natToString a)) true =
      (match jsParseInt (jsTrimString (natToString a)) with
       | some m => if 0 < m then m.toNat else 0
       | none => 0) := rfl
  rw [hdef, htrim, jsParseInt_natToString]
  rcases Nat.eq_zero_or_pos a with ha | ha
  · subst ha
    rfl
  · have hpos : (0 : Int) < (a : Int) := by exact_mod_cast ha
    simp [hpos]

end ScriptsLoader
